import Mathlib

/-
Verification of the ozFactory `ImageBuilder` texture pipeline
(repository `img2dds`, source `src/ImageBuilder.hh`).

The repository ships only the interface header; the implementation bodies
(`determineAlpha`, mipmap generation, swizzles, `createDDS`, `convertToDDS`)
are not under `src/`, so those operations are modelled from the spec
(spec.md) as noted on each definition.  The data layout (`ImageData` fields,
the inline `isEmpty`, all option bit constants) is taken from the header.
-/

namespace oz

/-- One RGBA texel; each channel is one byte, modelled as a natural number. -/
structure Pixel where
  r : Nat
  g : Nat
  b : Nat
  a : Nat
deriving DecidableEq

/-- Mirrors `struct ImageData` from `src/ImageBuilder.hh`: width, height, a
flag bitset and the pixel storage.  The C `char* pixels` pointer is modelled
as `Option (List Pixel)`, with `none` standing for a null pointer. -/
structure ImageData where
  width : Nat
  height : Nat
  flags : Nat
  pixels : Option (List Pixel)
deriving DecidableEq

namespace ImageData

/-- `ImageData::ALPHA_BIT` from `src/ImageBuilder.hh`. -/
def ALPHA_BIT : Nat := 0x01

/-- Modelled from the spec: the body of the default constructor
`ImageData::ImageData()` is not under `src/`.  Its doc comment says it
creates an empty instance with no allocation, and spec §3 says an empty
buffer has zero dimensions. -/
def empty : ImageData := ⟨0, 0, 0, none⟩

/-- `ImageData::isEmpty` from `src/ImageBuilder.hh`: `pixels == nullptr`. -/
def isEmpty (i : ImageData) : Bool := i.pixels.isNone

/-- Modelled from the spec (§4.1): true iff some pixel's alpha byte is not
fully opaque, i.e. below 255.  Helper for `determineAlpha`. -/
def hasNonOpaque (ps : List Pixel) : Bool := ps.any fun p => p.a < 255

/-- Modelled from the spec: the body of `ImageData::determineAlpha` is not
under `src/`.  Per spec §4.1 it scans every pixel's alpha byte, sets the
alpha flag if any is `< 255` and leaves it clear otherwise.  `ALPHA_BIT` is
bit 0, so the flag bit is rebuilt from the scan while all other flag bits
(`2 * (flags / 2)`) are preserved.  A null buffer is left untouched. -/
def determineAlpha (i : ImageData) : ImageData :=
  match i.pixels with
  | none => i
  | some ps =>
      { i with flags := 2 * (i.flags / 2) + (if hasNonOpaque ps then ALPHA_BIT else 0) }

end ImageData

/-- Modelled from the spec: the swizzle implementation behind
`ImageBuilder::YYYX_BIT` is not under `src/`.  Spec §4.3: output
`(G, G, G, R)` from input `(R, G, B, A)`. -/
def swizzleYYYX (p : Pixel) : Pixel := ⟨p.g, p.g, p.g, p.r⟩

/-- Modelled from the spec: the swizzle implementation behind
`ImageBuilder::ZYZX_BIT` is not under `src/`.  Spec §4.3: output
`(B, G, B, R)` from input `(R, G, B, A)`. -/
def swizzleZYZX (p : Pixel) : Pixel := ⟨p.b, p.g, p.b, p.r⟩

namespace ImageBuilder

/-- `ImageBuilder::CUBE_MAP_BIT` from `src/ImageBuilder.hh`. -/
def CUBE_MAP_BIT : Nat := 0x01

/-- `ImageBuilder::NORMAL_MAP_BIT` from `src/ImageBuilder.hh`. -/
def NORMAL_MAP_BIT : Nat := 0x02

/-- `ImageBuilder::MIPMAPS_BIT` from `src/ImageBuilder.hh`. -/
def MIPMAPS_BIT : Nat := 0x04

/-- `ImageBuilder::COMPRESSION_BIT` from `src/ImageBuilder.hh`. -/
def COMPRESSION_BIT : Nat := 0x08

/-- `ImageBuilder::FLIP_BIT` from `src/ImageBuilder.hh`. -/
def FLIP_BIT : Nat := 0x10

/-- `ImageBuilder::FLOP_BIT` from `src/ImageBuilder.hh`. -/
def FLOP_BIT : Nat := 0x20

/-- `ImageBuilder::YYYX_BIT` from `src/ImageBuilder.hh`. -/
def YYYX_BIT : Nat := 0x40

/-- `ImageBuilder::ZYZX_BIT` from `src/ImageBuilder.hh`. -/
def ZYZX_BIT : Nat := 0x80

end ImageBuilder

/-- Modelled from the spec (§3, §4.2): one downsampling step of the mipmap
chain builder — halve each dimension, rounding down, clamping at 1. -/
def mipStep (d : Nat × Nat) : Nat × Nat := (max (d.1 / 2) 1, max (d.2 / 2) 1)

/-- Modelled from the spec: the mipmap chain builder is not under `src/`.
Fuel-indexed dimension chain (§4.2): keep the current level and recurse on
the halved dimensions until both dimensions are at most 1.  The fuel only
bounds the recursion depth; `mipDims` supplies enough of it. -/
def mipDimsF : Nat → Nat → Nat → List (Nat × Nat)
  | 0, w, h => [(w, h)]
  | fuel + 1, w, h =>
      if 2 ≤ w ∨ 2 ≤ h then (w, h) :: mipDimsF fuel (max (w / 2) 1) (max (h / 2) 1)
      else [(w, h)]

/-- Modelled from the spec (§4.2): the dimension chain of the mipmap chain
builder, from the base level down to 1×1.  `max w h` halving steps always
suffice, since the number of steps is `log2 (max w h)`. -/
def mipDims (w h : Nat) : List (Nat × Nat) := mipDimsF (max w h) w h

/-- Modelled from the spec (§4.2): the chain of level dimensions produced by
a build — the full mip chain when `MIPMAPS_BIT` is set, only the base level
otherwise. -/
def buildMipmapChain (options w h : Nat) : List (Nat × Nat) :=
  if options &&& ImageBuilder.MIPMAPS_BIT ≠ 0 then mipDims w h else [(w, h)]

/-- Modelled from the spec (§7): the error kinds reported by a failed
build. -/
inductive BuildError where
  | invalidInput
  | unsupportedConfiguration
  | decodeFailure
  | ioFailure
deriving DecidableEq

/-- Modelled from the spec (§3): the closed set of pixel formats a container
can declare. -/
inductive PixelFormat where
  | rgb
  | rgba
  | dxt1
  | dxt5
deriving DecidableEq

/-- Round a byte count up to the next multiple of 4 (32-bit row alignment,
spec §3 and §6). -/
def align4 (n : Nat) : Nat := (n + 3) / 4 * 4

/-- Modelled from the spec (§4.4): the byte size of one mip level of
dimensions `w × h` in a given pixel format.  Uncompressed rows respect
32-bit alignment; the block-compressed formats use 8 (DXT1) or 16 (DXT5)
bytes per 4×4 block, with partial blocks padded. -/
def levelSize (fmt : PixelFormat) (w h : Nat) : Nat :=
  match fmt with
  | .rgb => align4 (3 * w) * h
  | .rgba => 4 * w * h
  | .dxt1 => (w + 3) / 4 * ((h + 3) / 4) * 8
  | .dxt5 => (w + 3) / 4 * ((h + 3) / 4) * 16

/-- Modelled from the spec (§3, §4.4): the pixel format is chosen from alpha
presence and the compression option only — DXT1/DXT5 when compressing,
raw RGB/RGBA otherwise. -/
def chooseFormat (compress hasAlpha : Bool) : PixelFormat :=
  if compress then (if hasAlpha then .dxt5 else .dxt1)
  else (if hasAlpha then .rgba else .rgb)

/-- Modelled from the spec (§3, §4.5): the assembled container — header
fields plus the payload, the payload represented by its byte size, which by
the §4.5 invariant is fully determined by dimensions, mip count, face count
and format. -/
structure Container where
  width : Nat
  height : Nat
  mipCount : Nat
  faceCount : Nat
  cubeMap : Bool
  normalMap : Bool
  format : PixelFormat
  payloadSize : Nat
deriving DecidableEq

/-- Modelled from the spec (§3, §4.6): all faces of a face set must share the
dimensions and the alpha status of the first face. -/
def facesConsistent (f0 : ImageData) (faces : List ImageData) : Bool :=
  faces.all fun f =>
    f.width == f0.width && f.height == f0.height &&
      (f.flags &&& ImageData.ALPHA_BIT == f0.flags &&& ImageData.ALPHA_BIT)

/-- Modelled from the spec: the body of `ImageBuilder::createDDS` is not
under `src/` (only its declaration).  Validation follows spec §4.6, §7 and
§9: the face array (the C `faces`/`nFaces` pair is modelled as a list) is
checked for cube-map face count, mutual consistency, positive dimensions and
non-null pixels, then the configuration is checked for compression
availability (the `compressionSupported` parameter models the build-time
`OZ_NONFREE` feature flag) and for the mutually exclusive swizzle bits.
On success the container is assembled per §4.5, with one dimension chain
shared by all faces and the payload size summed over faces and levels. -/
def createDDS (compressionSupported : Bool) (faces : List ImageData) (options : Nat) :
    Except BuildError Container :=
  match faces with
  | [] => .error .invalidInput
  | f0 :: rest =>
      if options &&& ImageBuilder.CUBE_MAP_BIT ≠ 0 ∧ (f0 :: rest).length ≠ 6 then
        .error .invalidInput
      else if ¬ facesConsistent f0 (f0 :: rest) then .error .invalidInput
      else if f0.width = 0 ∨ f0.height = 0 then .error .invalidInput
      else if (f0 :: rest).any ImageData.isEmpty then .error .invalidInput
      else if options &&& ImageBuilder.COMPRESSION_BIT ≠ 0 ∧ ¬ compressionSupported then
        .error .unsupportedConfiguration
      else if options &&& ImageBuilder.YYYX_BIT ≠ 0 ∧ options &&& ImageBuilder.ZYZX_BIT ≠ 0 then
        .error .unsupportedConfiguration
      else
        let hasAlpha := f0.flags &&& ImageData.ALPHA_BIT != 0
        let fmt := chooseFormat (options &&& ImageBuilder.COMPRESSION_BIT != 0) hasAlpha
        let dims := buildMipmapChain options f0.width f0.height
        .ok { width := f0.width
              height := f0.height
              mipCount := dims.length
              faceCount := (f0 :: rest).length
              cubeMap := options &&& ImageBuilder.CUBE_MAP_BIT != 0
              normalMap := options &&& ImageBuilder.NORMAL_MAP_BIT != 0
              format := fmt
              payloadSize :=
                (f0 :: rest).length * (dims.map fun d => levelSize fmt d.1 d.2).sum }

/-- The four magic bytes identifying a DDS container: "DDS ". -/
def ddsMagic : List Nat := [0x44, 0x44, 0x53, 0x20]

/-- Modelled from the spec (§4.6, §6): a byte stream is already a valid DDS
container when it starts with the DDS magic and is long enough to hold the
complete 128-byte header. -/
def isValidDDS (bytes : List Nat) : Bool :=
  bytes.take 4 == ddsMagic && decide (128 ≤ bytes.length)

/-- The result of a conversion: either the source bytes copied through
unchanged, or a freshly assembled container. -/
inductive DDSOutput where
  | copied (bytes : List Nat)
  | built (c : Container)
deriving DecidableEq

/-- Modelled from the spec: the body of `ImageBuilder::convertToDDS` is not
under `src/` (only its declaration).  Per spec §4.6: if the source bytes are
already a valid DDS container they are copied byte-for-byte, regardless of
options; otherwise the image decoded by the external collaborator (modelled
as the `decoded` parameter, `ImageData.empty` standing for a decode failure)
is classified for alpha and run through the single-face `createDDS`
pipeline. -/
def convertToDDS (compressionSupported : Bool) (bytes : List Nat) (options : Nat)
    (decoded : ImageData) : Except BuildError DDSOutput :=
  if isValidDDS bytes then .ok (.copied bytes)
  else if decoded.isEmpty then .error .decodeFailure
  else (createDDS compressionSupported [decoded.determineAlpha] options).map .built

/-- Modelled from the spec (§5, §7): the build output is buffered fully in
memory and written to the destination in a single step only on success; the
destination (`Option Container`, `none` when no file exists) is untouched on
any failure and the failure is the synchronous result of the call. -/
def buildAndWrite (compressionSupported : Bool) (faces : List ImageData) (options : Nat)
    (dest : Option Container) : Except BuildError Unit × Option Container :=
  match createDDS compressionSupported faces options with
  | .error e => (.error e, dest)
  | .ok c => (.ok (), some c)

/-- Modelled from the spec (§5, §7): the conversion counterpart of
`buildAndWrite` — single write on success, destination untouched on
failure. -/
def convertAndWrite (compressionSupported : Bool) (bytes : List Nat) (options : Nat)
    (decoded : ImageData) (dest : Option DDSOutput) :
    Except BuildError Unit × Option DDSOutput :=
  match convertToDDS compressionSupported bytes options decoded with
  | .error e => (.error e, dest)
  | .ok out => (.ok (), some out)

/-- Equality of build results is decidable, so concrete runs of the pipeline
can be checked by evaluation. -/
instance {ε α : Type} [DecidableEq ε] [DecidableEq α] : DecidableEq (Except ε α) :=
  fun x y =>
    match x, y with
    | .ok a, .ok b =>
        if h : a = b then .isTrue (by rw [h]) else .isFalse fun hc => h (Except.ok.inj hc)
    | .error a, .error b =>
        if h : a = b then .isTrue (by rw [h]) else .isFalse fun hc => h (Except.error.inj hc)
    | .ok _, .error _ => .isFalse fun hc => Except.noConfusion hc
    | .error _, .ok _ => .isFalse fun hc => Except.noConfusion hc

/-- A concrete 2×2 fully opaque image used to instantiate witnesses. -/
def sampleImage : ImageData :=
  ⟨2, 2, 0, some [⟨0, 0, 0, 255⟩, ⟨0, 0, 0, 255⟩, ⟨0, 0, 0, 255⟩, ⟨0, 0, 0, 255⟩]⟩

/-- A concrete minimal valid DDS byte stream used to instantiate witnesses. -/
def sampleDDSBytes : List Nat := ddsMagic ++ List.replicate 124 0

theorem next_max_eq (w h : Nat) :
    max (max (w / 2) 1) (max (h / 2) 1) = max (max w h / 2) 1 := by omega

theorem log2_step (n : Nat) (h : 2 ≤ n) : Nat.log2 n = Nat.log2 (n / 2) + 1 := by
  rw [Nat.log2_eq_log_two, Nat.log2_eq_log_two]
  have h1 := Nat.log_div_base 2 n
  have h2 := Nat.log_pos (by norm_num) h
  omega

theorem mipDimsF_length (fuel : Nat) :
    ∀ w h, 0 < w → 0 < h → max w h ≤ 2 ^ fuel →
      (mipDimsF fuel w h).length = Nat.log2 (max w h) + 1 := by
  induction fuel with
  | zero =>
      intro w h hw hh hb
      rw [pow_zero] at hb
      have hw1 : w = 1 := by omega
      have hh1 : h = 1 := by omega
      subst hw1 hh1
      simp [mipDimsF, Nat.log2]
  | succ fuel ih =>
      intro w h hw hh hb
      by_cases hc : 2 ≤ w ∨ 2 ≤ h
      · have hmax2 : 2 ≤ max w h := by omega
        have hb' : max (max (w / 2) 1) (max (h / 2) 1) ≤ 2 ^ fuel := by
          rw [pow_succ] at hb; omega
        simp only [mipDimsF, if_pos hc, List.length_cons]
        rw [ih _ _ (by omega) (by omega) hb', next_max_eq]
        have hm1 : max (max w h / 2) 1 = max w h / 2 := by omega
        rw [hm1, log2_step _ hmax2]
      · have hw1 : w = 1 := by omega
        have hh1 : h = 1 := by omega
        subst hw1 hh1
        simp [mipDimsF, Nat.log2]

theorem mipDims_length (w h : Nat) (hw : 0 < w) (hh : 0 < h) :
    (mipDims w h).length = Nat.log2 (max w h) + 1 :=
  mipDimsF_length (max w h) w h hw hh (le_of_lt (Nat.lt_two_pow _))

theorem mipDimsF_ne_nil (fuel w h : Nat) : mipDimsF fuel w h ≠ [] := by
  cases fuel with
  | zero => simp [mipDimsF]
  | succ n => simp only [mipDimsF]; split <;> simp

theorem getLast?_cons_of_ne_nil {α : Type} (a : α) {l : List α} (h : l ≠ []) :
    (a :: l).getLast? = l.getLast? := by
  cases l with
  | nil => exact absurd rfl h
  | cons b t => simp [List.getLast?_cons_cons]

theorem mipDimsF_getLast (fuel : Nat) :
    ∀ w h, 0 < w → 0 < h → max w h ≤ 2 ^ fuel →
      (mipDimsF fuel w h).getLast? = some (1, 1) := by
  induction fuel with
  | zero =>
      intro w h hw hh hb
      rw [pow_zero] at hb
      have hw1 : w = 1 := by omega
      have hh1 : h = 1 := by omega
      subst hw1 hh1
      rfl
  | succ fuel ih =>
      intro w h hw hh hb
      by_cases hc : 2 ≤ w ∨ 2 ≤ h
      · have hb' : max (max (w / 2) 1) (max (h / 2) 1) ≤ 2 ^ fuel := by
          rw [pow_succ] at hb; omega
        simp only [mipDimsF, if_pos hc]
        rw [getLast?_cons_of_ne_nil _ (mipDimsF_ne_nil _ _ _)]
        exact ih _ _ (by omega) (by omega) hb'
      · have hw1 : w = 1 := by omega
        have hh1 : h = 1 := by omega
        subst hw1 hh1
        simp only [mipDimsF, if_neg hc]
        rfl

theorem mipDims_getLast (w h : Nat) (hw : 0 < w) (hh : 0 < h) :
    (mipDims w h).getLast? = some (1, 1) :=
  mipDimsF_getLast (max w h) w h hw hh (le_of_lt (Nat.lt_two_pow _))

theorem mipDimsF_head (fuel w h : Nat) : (mipDimsF fuel w h)[0]? = some (w, h) := by
  cases fuel with
  | zero => rfl
  | succ n => simp only [mipDimsF]; split <;> simp

theorem mipDimsF_getElem_succ (fuel : Nat) :
    ∀ w h i d d', (mipDimsF fuel w h)[i]? = some d → (mipDimsF fuel w h)[i + 1]? = some d' →
      d' = mipStep d := by
  induction fuel with
  | zero =>
      intro w h i d d' h1 h2
      simp [mipDimsF] at h2
  | succ fuel ih =>
      intro w h i d d' h1 h2
      by_cases hc : 2 ≤ w ∨ 2 ≤ h
      · simp only [mipDimsF, if_pos hc] at h1 h2
        cases i with
        | zero =>
            rw [List.getElem?_cons_zero] at h1
            rw [List.getElem?_cons_succ, mipDimsF_head] at h2
            cases h1
            cases h2
            rfl
        | succ j =>
            rw [List.getElem?_cons_succ] at h1 h2
            exact ih _ _ j d d' h1 h2
      · simp only [mipDimsF, if_neg hc] at h2
        simp at h2

theorem mipDims_getElem_succ (w h i : Nat) (d d' : Nat × Nat)
    (h1 : (mipDims w h)[i]? = some d) (h2 : (mipDims w h)[i + 1]? = some d') :
    d' = mipStep d :=
  mipDimsF_getElem_succ (max w h) w h i d d' h1 h2

/-- C1: for a base level of positive width `W` and height `H`, when
`MIPMAPS_BIT` is set the generated chain has length `⌊log₂ (max W H)⌋ + 1`,
every level after index 0 has exactly half the width and height of the
previous level (rounded down, floored at 1), and the final level is 1×1;
when `MIPMAPS_BIT` is not set the chain holds only the base level. -/
theorem mipmapChain_spec (W H options : Nat) (hW : 0 < W) (hH : 0 < H) :
    (options &&& ImageBuilder.MIPMAPS_BIT ≠ 0 →
      (buildMipmapChain options W H).length = Nat.log2 (max W H) + 1 ∧
      (∀ i d d', (buildMipmapChain options W H)[i]? = some d →
        (buildMipmapChain options W H)[i + 1]? = some d' →
        d' = (max (d.1 / 2) 1, max (d.2 / 2) 1)) ∧
      (buildMipmapChain options W H).getLast? = some (1, 1)) ∧
    (options &&& ImageBuilder.MIPMAPS_BIT = 0 →
      buildMipmapChain options W H = [(W, H)]) := by
  constructor
  · intro hopt
    rw [buildMipmapChain, if_pos hopt]
    exact ⟨mipDims_length W H hW hH,
      fun i d d' h1 h2 => mipDims_getElem_succ W H i d d' h1 h2,
      mipDims_getLast W H hW hH⟩
  · intro hopt
    rw [buildMipmapChain, if_neg (by simp [hopt])]

/-- Witness for C1 at `W = 4`, `H = 2`, `options = MIPMAPS_BIT`. -/
theorem mipmapChain_spec_witness :
    0 < 4 ∧ 0 < 2 ∧
    ((ImageBuilder.MIPMAPS_BIT &&& ImageBuilder.MIPMAPS_BIT ≠ 0 →
      (buildMipmapChain ImageBuilder.MIPMAPS_BIT 4 2).length = Nat.log2 (max 4 2) + 1 ∧
      (∀ i d d', (buildMipmapChain ImageBuilder.MIPMAPS_BIT 4 2)[i]? = some d →
        (buildMipmapChain ImageBuilder.MIPMAPS_BIT 4 2)[i + 1]? = some d' →
        d' = (max (d.1 / 2) 1, max (d.2 / 2) 1)) ∧
      (buildMipmapChain ImageBuilder.MIPMAPS_BIT 4 2).getLast? = some (1, 1)) ∧
    (ImageBuilder.MIPMAPS_BIT &&& ImageBuilder.MIPMAPS_BIT = 0 →
      buildMipmapChain ImageBuilder.MIPMAPS_BIT 4 2 = [(4, 2)])) :=
  ⟨by decide, by decide,
    mipmapChain_spec 4 2 ImageBuilder.MIPMAPS_BIT (by decide) (by decide)⟩

/-- C2: on any non-empty buffer, after `determineAlpha` the alpha flag is
set if and only if at least one pixel's alpha byte is below 255; in
particular a buffer whose every pixel has alpha 255 never gets the flag
set. -/
theorem determineAlpha_spec (i : ImageData) (ps : List Pixel) (hp : i.pixels = some ps) :
    ((i.determineAlpha).flags &&& ImageData.ALPHA_BIT ≠ 0 ↔ ∃ p ∈ ps, p.a < 255) ∧
    ((∀ p ∈ ps, p.a = 255) → (i.determineAlpha).flags &&& ImageData.ALPHA_BIT = 0) := by
  have hd : i.determineAlpha =
      { i with flags := 2 * (i.flags / 2) +
          (if ImageData.hasNonOpaque ps then ImageData.ALPHA_BIT else 0) } := by
    rw [ImageData.determineAlpha, hp]
  have hiff : ImageData.hasNonOpaque ps = true ↔ ∃ p ∈ ps, p.a < 255 := by
    simp [ImageData.hasNonOpaque, List.any_eq_true]
  have key : (i.determineAlpha).flags &&& ImageData.ALPHA_BIT =
      (if ImageData.hasNonOpaque ps then 1 else 0) := by
    rw [hd]
    show (2 * (i.flags / 2) +
        (if ImageData.hasNonOpaque ps then ImageData.ALPHA_BIT else 0)) &&&
        ImageData.ALPHA_BIT = _
    simp only [ImageData.ALPHA_BIT]
    rw [Nat.and_one_is_mod]
    cases ImageData.hasNonOpaque ps <;> simp <;> omega
  constructor
  · rw [key, ← hiff]
    cases hno : ImageData.hasNonOpaque ps <;> simp
  · intro hall
    rw [key, if_neg]
    intro htrue
    obtain ⟨p, hpmem, hplt⟩ := hiff.mp htrue
    have := hall p hpmem
    omega

/-- C5: the YYYX swizzle maps every pixel `(R, G, B, A)` to `(G, G, G, R)`,
and it is not an involution: applying it twice to `(0, 1, 2, 3)` does not
give back `(0, 1, 2, 3)`. -/
theorem swizzleYYYX_spec :
    (∀ p : Pixel, swizzleYYYX p = ⟨p.g, p.g, p.g, p.r⟩) ∧
    swizzleYYYX (swizzleYYYX ⟨0, 1, 2, 3⟩) ≠ ⟨0, 1, 2, 3⟩ :=
  ⟨fun _ => rfl, by decide⟩

/-- C10: `isEmpty` holds exactly when the pixel pointer is null, and a
default-constructed `ImageData` has a null pixel pointer (no allocation),
zero dimensions, and satisfies `isEmpty`. -/
theorem isEmpty_spec :
    (∀ i : ImageData, i.isEmpty = true ↔ i.pixels = none) ∧
    ImageData.empty.isEmpty = true ∧ ImageData.empty.pixels = none ∧
    ImageData.empty.width = 0 ∧ ImageData.empty.height = 0 := by
  refine ⟨fun i => ?_, rfl, rfl, rfl, rfl⟩
  cases hp : i.pixels <;> simp [ImageData.isEmpty, hp]

/-- C3: converting a byte stream that is already a valid DDS container
copies it byte-for-byte, whatever the option flags, the decoded image or
the compression availability. -/
theorem convertToDDS_passthrough (cs : Bool) (bytes : List Nat) (options : Nat)
    (img : ImageData) (h : isValidDDS bytes = true) :
    convertToDDS cs bytes options img = .ok (.copied bytes) := by
  rw [convertToDDS, if_pos h]

set_option maxRecDepth 4000 in
/-- Witness for C3 on a minimal 128-byte DDS stream, with every option bit
set. -/
theorem convertToDDS_passthrough_witness :
    isValidDDS sampleDDSBytes = true ∧
    convertToDDS true sampleDDSBytes 255 ImageData.empty = .ok (.copied sampleDDSBytes) :=
  ⟨by decide, convertToDDS_passthrough true sampleDDSBytes 255 ImageData.empty (by decide)⟩

/-- Witness for C2 on a 1×2 buffer with one translucent pixel. -/
theorem determineAlpha_spec_witness :
    (ImageData.mk 2 1 0 (some [⟨0, 0, 0, 10⟩, ⟨0, 0, 0, 255⟩])).pixels =
      some [⟨0, 0, 0, 10⟩, ⟨0, 0, 0, 255⟩] ∧
    (((ImageData.mk 2 1 0
          (some [⟨0, 0, 0, 10⟩, ⟨0, 0, 0, 255⟩])).determineAlpha).flags &&&
        ImageData.ALPHA_BIT ≠ 0 ↔
      ∃ p ∈ [Pixel.mk 0 0 0 10, Pixel.mk 0 0 0 255], p.a < 255) ∧
    ((∀ p ∈ [Pixel.mk 0 0 0 10, Pixel.mk 0 0 0 255], p.a = 255) →
      ((ImageData.mk 2 1 0
          (some [⟨0, 0, 0, 10⟩, ⟨0, 0, 0, 255⟩])).determineAlpha).flags &&&
        ImageData.ALPHA_BIT = 0) :=
  ⟨rfl, determineAlpha_spec _ _ rfl⟩

/-- C6: whenever the cube-map bit is set and the face count is not exactly
6, `createDDS` fails with `InvalidInput` and produces no container. -/
theorem createDDS_cubeMap_faceCount (cs : Bool) (faces : List ImageData) (options : Nat)
    (hcube : options &&& ImageBuilder.CUBE_MAP_BIT ≠ 0) (hn : faces.length ≠ 6) :
    createDDS cs faces options = .error .invalidInput := by
  cases faces with
  | nil => rfl
  | cons f0 rest =>
      simp only [createDDS]
      rw [if_pos ⟨hcube, hn⟩]

/-- Witness for C6: one face with the cube-map bit set. -/
theorem createDDS_cubeMap_faceCount_witness :
    (1 &&& ImageBuilder.CUBE_MAP_BIT ≠ 0) ∧ ([sampleImage].length ≠ 6) ∧
    createDDS true [sampleImage] 1 = .error .invalidInput :=
  ⟨by decide, by decide,
    createDDS_cubeMap_faceCount true [sampleImage] 1 (by decide) (by decide)⟩

/-- C7: when compression support is absent at build time, every invocation
with the compression bit set fails with an explicit error result — it never
returns a container. -/
theorem createDDS_compressionUnavailable (faces : List ImageData) (options : Nat)
    (hc : options &&& ImageBuilder.COMPRESSION_BIT ≠ 0) :
    ∃ e, createDDS false faces options = .error e := by
  cases faces with
  | nil => exact ⟨.invalidInput, rfl⟩
  | cons f0 rest =>
      simp only [createDDS]
      split_ifs with h1 h2 h3 h4 h5 h6
      all_goals first
        | exact ⟨_, rfl⟩
        | exact absurd ⟨hc, by simp⟩ h5

/-- Witness for C7: a valid single face with only the compression bit set. -/
theorem createDDS_compressionUnavailable_witness :
    (8 &&& ImageBuilder.COMPRESSION_BIT ≠ 0) ∧
    (∃ e, createDDS false [sampleImage] 8 = .error e) :=
  ⟨by decide, createDDS_compressionUnavailable [sampleImage] 8 (by decide)⟩

/-- C8 counterexample: with both swizzle bits set together with the
cube-map bit and a single face (options `0xC1 = 193`), the build fails with
`InvalidInput`, not `UnsupportedConfiguration`, so the claim as stated is
false. -/
theorem createDDS_swizzle_conflict_counterexample :
    (193 &&& ImageBuilder.YYYX_BIT ≠ 0) ∧ (193 &&& ImageBuilder.ZYZX_BIT ≠ 0) ∧
    createDDS true [sampleImage] 193 = .error .invalidInput ∧
    createDDS true [sampleImage] 193 ≠ .error .unsupportedConfiguration := by
  refine ⟨by decide, by decide, rfl, by decide⟩

/-- C8 amended: on a face set that passes input validation (a cube-map
request comes with exactly 6 faces, faces are mutually consistent, the base
dimensions are positive and no face is empty), an option word with both
swizzle bits set makes `createDDS` fail with `UnsupportedConfiguration`,
whatever the compression availability. -/
theorem createDDS_swizzle_conflict (cs : Bool) (f0 : ImageData) (rest : List ImageData)
    (options : Nat)
    (hcube : options &&& ImageBuilder.CUBE_MAP_BIT ≠ 0 → (f0 :: rest).length = 6)
    (hcons : facesConsistent f0 (f0 :: rest) = true)
    (hw : f0.width ≠ 0) (hh : f0.height ≠ 0)
    (hne : ¬ (f0 :: rest).any ImageData.isEmpty = true)
    (hy : options &&& ImageBuilder.YYYX_BIT ≠ 0)
    (hz : options &&& ImageBuilder.ZYZX_BIT ≠ 0) :
    createDDS cs (f0 :: rest) options = .error .unsupportedConfiguration := by
  simp only [createDDS]
  rw [if_neg (by intro hcontra; exact hcontra.2 (hcube hcontra.1)),
    if_neg (by simp [hcons]),
    if_neg (by simp [hw, hh]),
    if_neg hne]
  by_cases h5 : options &&& ImageBuilder.COMPRESSION_BIT ≠ 0 ∧ ¬ cs
  · rw [if_pos h5]
  · rw [if_neg h5, if_pos ⟨hy, hz⟩]

/-- Witness for the amended C8: a valid single face and options
`YYYX_BIT ||| ZYZX_BIT = 0xC0 = 192`. -/
theorem createDDS_swizzle_conflict_witness :
    (192 &&& ImageBuilder.YYYX_BIT ≠ 0) ∧ (192 &&& ImageBuilder.ZYZX_BIT ≠ 0) ∧
    createDDS true [sampleImage] 192 = .error .unsupportedConfiguration :=
  ⟨by decide, by decide,
    createDDS_swizzle_conflict true sampleImage [] 192 (by decide) (by decide)
      (by decide) (by decide) (by decide) (by decide) (by decide)⟩

/-- C9: a failing build leaves the destination exactly as it was — for both
entry points, when the pipeline reports an error, the wrapper returns that
error synchronously and the destination slot is unchanged. -/
theorem failure_leaves_destination_unchanged :
    (∀ cs faces options dest e, createDDS cs faces options = .error e →
      buildAndWrite cs faces options dest = (.error e, dest)) ∧
    (∀ cs bytes options img dest e, convertToDDS cs bytes options img = .error e →
      convertAndWrite cs bytes options img dest = (.error e, dest)) := by
  constructor
  · intro cs faces options dest e he
    rw [buildAndWrite, he]
  · intro cs bytes options img dest e he
    rw [convertAndWrite, he]

/-- Witness for C9: an empty face list makes `createDDS` fail, and empty
bytes with an empty decoded image make `convertToDDS` fail; in both cases a
pre-existing destination value survives untouched. -/
theorem failure_leaves_destination_unchanged_witness :
    buildAndWrite true [] 0 none = (.error .invalidInput, none) ∧
    convertAndWrite true [] 0 ImageData.empty none = (.error .decodeFailure, none) :=
  ⟨failure_leaves_destination_unchanged.1 true [] 0 none .invalidInput rfl,
    failure_leaves_destination_unchanged.2 true [] 0 ImageData.empty none .decodeFailure rfl⟩

/-- C4: a 256×256 fully opaque image classified for alpha and built with
only `MIPMAPS_BIT` yields a container with exactly 9 mip levels, the
uncompressed RGB format, no normal-map marker, and a payload of
262148 bytes — the sum over all 9 levels of `level_w * level_h * 3` bytes
with each row aligned to 32 bits. -/
theorem createDDS_256_opaque (cs : Bool) (img : ImageData) (ps : List Pixel)
    (hW : img.width = 256) (hH : img.height = 256)
    (hpx : img.pixels = some ps) (hop : ∀ p ∈ ps, p.a = 255) :
    createDDS cs [img.determineAlpha] ImageBuilder.MIPMAPS_BIT =
      .ok { width := 256, height := 256, mipCount := 9, faceCount := 1,
            cubeMap := false, normalMap := false, format := .rgb,
            payloadSize := 262148 } ∧
    262148 = ((buildMipmapChain ImageBuilder.MIPMAPS_BIT 256 256).map
      (fun d => align4 (3 * d.1) * d.2)).sum := by
  have hno : ImageData.hasNonOpaque ps = false := by
    simp only [ImageData.hasNonOpaque, List.any_eq_false, decide_eq_true_eq]
    intro p hp
    have := hop p hp
    omega
  have hd : img.determineAlpha = { img with flags := 2 * (img.flags / 2) } := by
    simp [ImageData.determineAlpha, hpx, hno]
  have hfw : (img.determineAlpha).width = 256 := by rw [hd]; exact hW
  have hfh : (img.determineAlpha).height = 256 := by rw [hd]; exact hH
  have hfp : (img.determineAlpha).pixels = some ps := by rw [hd]; exact hpx
  have hfa : (img.determineAlpha).flags &&& ImageData.ALPHA_BIT = 0 := by
    rw [hd]
    show (2 * (img.flags / 2)) &&& ImageData.ALPHA_BIT = 0
    simp only [ImageData.ALPHA_BIT]
    rw [Nat.and_one_is_mod]
    omega
  refine ⟨?_, by decide⟩
  simp only [createDDS]
  rw [if_neg (fun hcontra => hcontra.1 rfl),
    if_neg (by simp [facesConsistent]),
    if_neg (by simp [hfw, hfh]),
    if_neg (by simp [ImageData.isEmpty, hfp]),
    if_neg (fun hcontra => hcontra.1 rfl),
    if_neg (fun hcontra => hcontra.1 rfl)]
  simp only [hfw, hfh, hfa, List.length_singleton]
  decide

/-- A concrete 256×256 fully opaque image for the C4 witness. -/
def bigImage : ImageData := ⟨256, 256, 0, some (List.replicate 65536 ⟨128, 128, 128, 255⟩)⟩

/-- Witness for C4 on `bigImage`. -/
theorem createDDS_256_opaque_witness :
    bigImage.width = 256 ∧ bigImage.height = 256 ∧
    bigImage.pixels = some (List.replicate 65536 ⟨128, 128, 128, 255⟩) ∧
    (∀ p ∈ List.replicate 65536 (Pixel.mk 128 128 128 255), p.a = 255) ∧
    (createDDS true [bigImage.determineAlpha] ImageBuilder.MIPMAPS_BIT =
        .ok { width := 256, height := 256, mipCount := 9, faceCount := 1,
              cubeMap := false, normalMap := false, format := .rgb,
              payloadSize := 262148 } ∧
      262148 = ((buildMipmapChain ImageBuilder.MIPMAPS_BIT 256 256).map
        (fun d => align4 (3 * d.1) * d.2)).sum) :=
  ⟨rfl, rfl, rfl, fun p hp => by rw [List.eq_of_mem_replicate hp],
    createDDS_256_opaque true bigImage (List.replicate 65536 ⟨128, 128, 128, 255⟩)
      rfl rfl rfl (fun p hp => by rw [List.eq_of_mem_replicate hp])⟩

end oz
